import Mathlib

set_option maxRecDepth 100000

/-!
Verification of the Error Oracle extension core (src/src/extension.ts).

The development shallowly embeds the rule table `RULES`, the explanation
resolver `explainError`, the diagnostic locator `getDiagnosticAtPosition`
and the web-search URL construction of the command handler, and proves the
behavioural properties stated for them.

Regular-expression patterns of the rule table are embedded as sequences of
character-level atoms (`PatAtom`): a literal character (with the
case-insensitivity flag of the pattern) or the class `.+` (one or more
characters other than a line terminator).  `RegExp.prototype.test` is
unanchored, so the embedded `patternTest` searches for a match starting at
every position of the message.
-/

/-- Atom of an embedded regular expression: a literal character (matched
case-insensitively when `ci` is set, mirroring the `/i` flag), or the
piece `.+` (`dotPlus`), one or more non-line-terminator characters. -/
inductive PatAtom where
  | ch (c : Char) (ci : Bool)
  | dotPlus
deriving DecidableEq, Repr

/-- ASCII lower-casing, the case folding relevant for the `/i` patterns of
the rule table (their literals are ASCII). -/
def asciiLower (c : Char) : Char :=
  if 65 ≤ c.toNat ∧ c.toNat ≤ 90 then Char.ofNat (c.toNat + 32) else c

/-- One-character match of a literal pattern atom against a message
character; `ci` selects case-insensitive comparison. -/
def charMatch (ci : Bool) (p a : Char) : Bool :=
  if ci then asciiLower p == asciiLower a else p == a

/-- Characters matched by `.` in an ECMAScript regular expression without
the `s` flag: anything except the four line terminators. -/
def dotChar (c : Char) : Bool :=
  !(c == '\n' || c == '\r' || c.toNat == 0x2028 || c.toNat == 0x2029)

/-- Does some prefix of `s` match the atom sequence?  `dotPlus` consumes one
matching character and then either stops or keeps consuming (full
backtracking, so the result is the existential matching semantics of
`RegExp.prototype.test`). -/
def matchHere : List PatAtom → List Char → Bool
  | [], _ => true
  | _ :: _, [] => false
  | PatAtom.ch c ci :: ps, a :: s => charMatch ci c a && matchHere ps s
  | PatAtom.dotPlus :: ps, a :: s =>
      dotChar a && (matchHere ps s || matchHere (PatAtom.dotPlus :: ps) s)

/-- Unanchored search: try `matchHere` at every start position. -/
def regexSearch : List PatAtom → List Char → Bool
  | ps, [] => matchHere ps []
  | ps, a :: rest => matchHere ps (a :: rest) || regexSearch ps rest

/-- Literal fragment of a pattern, one `ch` atom per character. -/
def litAtoms (s : String) (ci : Bool) : List PatAtom :=
  s.data.map (fun c => PatAtom.ch c ci)

/-- Embedding of `pattern.test(message)`. -/
def patternTest (p : List PatAtom) (message : String) : Bool :=
  regexSearch p message.data

/-- Embedding of the `Rule` record type of extension.ts. -/
structure Rule where
  language : String
  pattern : List PatAtom
  explanation : String
deriving DecidableEq, Repr

/-- Rule 1, `python` / `/not defined/i`. -/
def ruleNotDefined : Rule :=
  ⟨"python", litAtoms "not defined" true,
   "This Python error means you're using a name (variable or function) that hasn't been defined in this scope.\n\nCommon fixes:\n- Check for typos in the name\n- Make sure you assign to the variable before using it\n- Ensure you've imported the function/module before calling it"⟩

/-- Rule 2, `python` / `/TypeError: .+/`. -/
def ruleTypeError : Rule :=
  ⟨"python", litAtoms "TypeError: " false ++ [PatAtom.dotPlus],
   "Python TypeError means an operation or function was used with the wrong type.\n\nCommon causes:\n- Adding or concatenating incompatible types (e.g. string + int)\n- Passing the wrong type of argument into a function"⟩

/-- Rule 3, `typescript` / `/Cannot find name '(.+)'/`. -/
def ruleCannotFindName : Rule :=
  ⟨"typescript",
   litAtoms "Cannot find name '" false ++ [PatAtom.dotPlus] ++ litAtoms "'" false,
   "TypeScript \"Cannot find name\" means the identifier is not in scope.\n\nCommon fixes:\n- Import it from the correct module\n- Declare the variable before using it\n- Check for typos in the name"⟩

/-- Rule 4, `typescript` / `/Property '(.+)' does not exist on type/`. -/
def rulePropertyNotExist : Rule :=
  ⟨"typescript",
   litAtoms "Property '" false ++ [PatAtom.dotPlus] ++ litAtoms "' does not exist on type" false,
   "This error means you're trying to use a property that TypeScript doesn't think exists on that type.\n\nCheck:\n- The type/interface definition\n- Spelling of the property\n- Whether you need to extend the type or add a type annotation"⟩

/-- Rule 5, `javascript` / `/ReferenceError: (.+) is not defined/`. -/
def ruleReferenceError : Rule :=
  ⟨"javascript",
   litAtoms "ReferenceError: " false ++ [PatAtom.dotPlus] ++ litAtoms " is not defined" false,
   "JavaScript ReferenceError means you're using a variable that hasn't been declared in this scope.\n\nDeclare the variable first, or make sure the script that defines it runs before this code."⟩

/-- The rule table, in declaration order. -/
def RULES : List Rule :=
  [ruleNotDefined, ruleTypeError, ruleCannotFindName, rulePropertyNotExist,
   ruleReferenceError]

/-- Lines of the fallback explanation, joined with a newline as in the
source array literal. -/
def fallbackLines (message : String) : List String :=
  ["Error Oracle doesn't have a specific explanation for this message yet.",
   "",
   "Error text:",
   "> " ++ message,
   "",
   "Things you can try:",
   "- Read the error carefully and note which variable/type it's about",
   "- Check the line above as well (errors often come from there)",
   "- Search the exact error message online or in your language docs"]

/-- The generic fallback explanation (`[...].join('\n')` in the source). -/
def fallbackText (message : String) : String :=
  String.intercalate "\n" (fallbackLines message)

/-- The rule-selection condition of the loop body in `explainError`. -/
def ruleMatches (message languageId : String) (rule : Rule) : Bool :=
  rule.language == languageId && patternTest rule.pattern message

/-- First rule of the table that applies, the early return of the loop. -/
def matchedRule (message languageId : String) : Option Rule :=
  RULES.find? (ruleMatches message languageId)

/-- Embedding of `explainError(message, languageId)`. -/
def explainError (message languageId : String) : String :=
  match matchedRule message languageId with
  | some rule => rule.explanation
  | none => fallbackText message

example : explainError "NameError: x is not defined" "python" =
    ruleNotDefined.explanation := by decide

example : explainError "Cannot find name 'foo'" "typescript" =
    ruleCannotFindName.explanation := by decide

example : explainError "TypeError: x not defined" "python" =
    ruleNotDefined.explanation := by decide

example : explainError "NOT DEFINED here" "python" =
    ruleNotDefined.explanation := by decide

example : explainError "not defined" "Python" =
    fallbackText "not defined" := by decide

example : patternTest ruleTypeError.pattern "ends with TypeError: " = false := by
  decide

/-- No rule of the table applies to the pair: decidable form of the
fallback condition of `explainError`. -/
def noRuleMatches (message languageId : String) : Bool :=
  RULES.all (fun rule => !ruleMatches message languageId rule)

/-- Embedding of `vscode.Position`: a zero-based line and character pair. -/
structure Position where
  line : Nat
  character : Nat
deriving DecidableEq, Repr

/-- Position order used by `Range.contains`: lexicographic on
(line, character), the semantics of `Position.isBeforeOrEqual`. -/
def posLeq (a b : Position) : Bool :=
  Nat.blt a.line b.line || (a.line == b.line && Nat.ble a.character b.character)

/-- Embedding of `vscode.Range`: a start and an end position (the source
field `end` is a reserved word here, hence `stop`). -/
structure Range where
  start : Position
  stop : Position
deriving DecidableEq, Repr

/-- Embedding of `range.contains(position)`: closed-interval containment
between start and end. -/
def rangeContains (r : Range) (p : Position) : Bool :=
  posLeq r.start p && posLeq p r.stop

/-- Embedding of `vscode.DiagnosticSeverity`. -/
inductive DiagnosticSeverity where
  | error
  | warning
  | information
  | hint
deriving DecidableEq, Repr

/-- Embedding of `vscode.Diagnostic`, restricted to the fields the
extension reads. -/
structure Diagnostic where
  message : String
  severity : DiagnosticSeverity
  range : Range
deriving DecidableEq, Repr

/-- Embedding of `getDiagnosticAtPosition`; the diagnostics sequence the
host returns for the document is passed explicitly, and the body is
`diagnostics.find(d => d.range.contains(position))`. -/
def getDiagnosticAtPosition (diagnostics : List Diagnostic)
    (position : Position) : Option Diagnostic :=
  diagnostics.find? (fun d => rangeContains d.range position)

/-- A diagnostic without its severity field: the data
`getDiagnosticAtPosition` is allowed to inspect. -/
def stripSeverity (d : Diagnostic) : String × Range :=
  (d.message, d.range)

/-- Characters `encodeURIComponent` leaves unescaped: ASCII alphanumerics
and `- _ . ! ~ * ' ( )` (the apostrophe is code point 39). -/
def uriUnescaped (c : Char) : Bool :=
  (Nat.ble 65 c.toNat && Nat.ble c.toNat 90) ||
  (Nat.ble 97 c.toNat && Nat.ble c.toNat 122) ||
  (Nat.ble 48 c.toNat && Nat.ble c.toNat 57) ||
  c == '-' || c == '_' || c == '.' || c == '!' || c == '~' || c == '*' ||
  c.toNat == 39 || c == '(' || c == ')'

/-- UTF-8 encoding of a character, as byte values. -/
def utf8Bytes (c : Char) : List Nat :=
  let n := c.toNat
  if n < 0x80 then [n]
  else if n < 0x800 then [0xC0 + n / 64, 0x80 + n % 64]
  else if n < 0x10000 then
    [0xE0 + n / 4096, 0x80 + (n / 64) % 64, 0x80 + n % 64]
  else
    [0xF0 + n / 262144, 0x80 + (n / 4096) % 64, 0x80 + (n / 64) % 64,
     0x80 + n % 64]

/-- Upper-case hexadecimal digit of a value below 16. -/
def hexDigit (n : Nat) : Char :=
  if n < 10 then Char.ofNat (48 + n) else Char.ofNat (55 + n)

/-- Percent-escape of one byte, `%XX` with upper-case hexadecimal. -/
def percentByte (b : Nat) : List Char :=
  ['%', hexDigit (b / 16), hexDigit (b % 16)]

/-- Embedding of ECMAScript `encodeURIComponent`: unreserved characters
pass through, every other character is UTF-8 encoded and percent-escaped
byte by byte. -/
def encodeURIComponent (s : String) : String :=
  String.mk (s.data.flatMap (fun c =>
    if uriUnescaped c then [c] else (utf8Bytes c).flatMap percentByte))

/-- The query component built by the command handler:
`encodeURIComponent` of the language identifier, a space, and the raw
diagnostic message. -/
def searchQuery (languageId message : String) : String :=
  encodeURIComponent (languageId ++ " " ++ message)

/-- The URL passed to `vscode.env.openExternal` by the command handler. -/
def searchUrl (languageId message : String) : String :=
  "https://www.google.com/search?q=" ++ searchQuery languageId message

example : searchQuery "python" "TypeError: bad" =
    "python%20TypeError%3A%20bad" := by decide

example : getDiagnosticAtPosition
    [⟨"m", DiagnosticSeverity.error, ⟨⟨0, 3⟩, ⟨0, 10⟩⟩⟩] ⟨0, 7⟩ =
    some ⟨"m", DiagnosticSeverity.error, ⟨⟨0, 3⟩, ⟨0, 10⟩⟩⟩ := by decide

example : getDiagnosticAtPosition
    [⟨"m", DiagnosticSeverity.error, ⟨⟨0, 3⟩, ⟨0, 10⟩⟩⟩] ⟨0, 11⟩ =
    none := by decide

/-- Sample diagnostic of the locator scenario: range from character 3 to
character 10 of line 0. -/
def sampleDiag : Diagnostic :=
  ⟨"sample", DiagnosticSeverity.error, ⟨⟨0, 3⟩, ⟨0, 10⟩⟩⟩

/-- First position of the first diagnostic whose range contains `p`, if
any: the index selected by `getDiagnosticAtPosition`. -/
def firstHitIndex (diagnostics : List Diagnostic) (p : Position) :
    Option Nat :=
  match diagnostics with
  | [] => none
  | d :: rest =>
      if rangeContains d.range p then some 0
      else (firstHitIndex rest p).map (· + 1)

/-- Everything before the fallback echo of the message. -/
def fbHeadStr : String :=
  "Error Oracle doesn't have a specific explanation for this message yet.\n\nError text:\n"

/-- Everything after the fallback echo of the message. -/
def fbTailStr : String :=
  "\n\nThings you can try:\n- Read the error carefully and note which variable/type it's about\n- Check the line above as well (errors often come from there)\n- Search the exact error message online or in your language docs"

theorem intercalate_go_data (s : String) (as : List String) :
    ∀ acc : String,
      (String.intercalate.go acc s as).data =
        acc.data ++ as.flatMap (fun a => s.data ++ a.data) := by
  induction as with
  | nil => intro acc; simp [String.intercalate.go]
  | cons a as ih =>
      intro acc
      simp [String.intercalate.go, ih, String.data_append, List.append_assoc]

/-- The fallback explanation is a fixed head, the quoted echo of the
message, and a fixed tail. -/
theorem fallback_decomp (m : String) :
    fallbackText m = fbHeadStr ++ ("> " ++ m) ++ fbTailStr := by
  apply String.ext
  simp [fallbackText, fallbackLines, String.intercalate, intercalate_go_data,
    fbHeadStr, fbTailStr, String.data_append, List.append_assoc]

/-- List.find? returns the head of the decomposition when everything
declared earlier fails the predicate. -/
theorem find_eq_of_earlier_false {α : Type} (p : α → Bool)
    (pre : List α) (a : α) (post : List α) (ha : p a = true)
    (hpre : ∀ x ∈ pre, p x = false) :
    (pre ++ a :: post).find? p = some a := by
  induction pre with
  | nil => simp [List.find?_cons, ha]
  | cons x xs ih =>
      have hx : p x = false := hpre x (by simp)
      simp only [List.cons_append, List.find?_cons, hx]
      exact ih (fun y hy => hpre y (by simp [hy]))

/-- When no rule applies, the resolver returns the fallback text. -/
theorem explainError_eq_fallback (m lang : String)
    (h : noRuleMatches m lang = true) :
    explainError m lang = fallbackText m := by
  have hnone : matchedRule m lang = none := by
    apply List.find?_eq_none.mpr
    intro r hr
    have := (List.all_eq_true.mp h) r hr
    simp only [Bool.not_eq_true'] at this
    simp [this]
  simp [explainError, hnone]

/-- A selected rule passed the language equality test of the loop. -/
theorem matchedRule_language (m lang : String) (r : Rule)
    (h : matchedRule m lang = some r) : r.language = lang := by
  have := List.find?_some h
  simp only [ruleMatches, Bool.and_eq_true, beq_iff_eq] at this
  exact this.1

/-- C1: first-match-wins resolution.  Whenever the rule table splits as
`pre ++ r :: post` where `r` applies to `(m, lang)` and no rule of `pre`
does, `explainError` returns exactly `r`'s explanation; in particular, on
the message "TypeError: x not defined", which both python rules match,
the earlier-declared rule (rule 1) wins. -/
theorem explain_first_match_wins :
    (∀ (m lang : String) (pre post : List Rule) (r : Rule),
        RULES = pre ++ r :: post →
        ruleMatches m lang r = true →
        (∀ r' ∈ pre, ruleMatches m lang r' = false) →
        explainError m lang = r.explanation) ∧
    ruleMatches "TypeError: x not defined" "python" ruleNotDefined = true ∧
    ruleMatches "TypeError: x not defined" "python" ruleTypeError = true ∧
    explainError "TypeError: x not defined" "python" =
      ruleNotDefined.explanation := by
  refine ⟨?_, by decide, by decide, by decide⟩
  intro m lang pre post r htable hr hpre
  have hfound : matchedRule m lang = some r := by
    unfold matchedRule
    rw [htable]
    exact find_eq_of_earlier_false _ _ _ _ hr hpre
  simp [explainError, hfound]

/-- Witness for C1: the table splits as `[] ++ ruleNotDefined :: rest`,
the first rule matches the message, and the resolver returns its
explanation. -/
theorem explain_first_match_wins_witness :
    explainError "TypeError: x not defined" "python" =
      ruleNotDefined.explanation :=
  explain_first_match_wins.1 "TypeError: x not defined" "python" []
    [ruleTypeError, ruleCannotFindName, rulePropertyNotExist,
     ruleReferenceError] ruleNotDefined rfl (by decide)
    (by intro r' hr'; simp at hr')

/-- C2: when no rule of the table applies to `(m, lang)`, the resolver
returns the generic fallback text, which contains the quoted message
`"> " ++ m` verbatim as a contiguous segment; concretely,
`explainError "some unrecognized message" "ruby"` is fallback text
containing "> some unrecognized message". -/
theorem explain_fallback_echoes_message :
    (∀ m lang : String, noRuleMatches m lang = true →
        explainError m lang = fallbackText m ∧
        ∃ a b : String, fallbackText m = a ++ ("> " ++ m) ++ b) ∧
    (∃ a b : String,
        explainError "some unrecognized message" "ruby" =
          a ++ "> some unrecognized message" ++ b) := by
  constructor
  · intro m lang h
    exact ⟨explainError_eq_fallback m lang h,
      fbHeadStr, fbTailStr, fallback_decomp m⟩
  · exact ⟨fbHeadStr, fbTailStr, by decide⟩

/-- Witness for C2: no rule applies to the ruby message, and the theorem
yields the fallback equality together with the verbatim echo. -/
theorem explain_fallback_echoes_message_witness :
    explainError "some unrecognized message" "ruby" =
      fallbackText "some unrecognized message" ∧
    ∃ a b : String, fallbackText "some unrecognized message" =
      a ++ ("> " ++ "some unrecognized message") ++ b :=
  explain_fallback_echoes_message.1 "some unrecognized message" "ruby"
    (by decide)

/-- C3: the locator contract.  On an empty sequence or when no range
contains the position it returns `none`; it returns the first diagnostic
of the sequence whose range contains the position; and on the sample
diagnostic with range characters 3 to 10, position 7 is found while
position 11 is absent. -/
theorem findAt_contract :
    (∀ p : Position, getDiagnosticAtPosition [] p = none) ∧
    (∀ (ds : List Diagnostic) (p : Position),
        (∀ d ∈ ds, rangeContains d.range p = false) →
        getDiagnosticAtPosition ds p = none) ∧
    (∀ (ds pre post : List Diagnostic) (d : Diagnostic) (p : Position),
        ds = pre ++ d :: post →
        rangeContains d.range p = true →
        (∀ e ∈ pre, rangeContains e.range p = false) →
        getDiagnosticAtPosition ds p = some d) ∧
    getDiagnosticAtPosition [sampleDiag] ⟨0, 7⟩ = some sampleDiag ∧
    getDiagnosticAtPosition [sampleDiag] ⟨0, 11⟩ = none := by
  refine ⟨fun p => rfl, ?_, ?_, by decide, by decide⟩
  · intro ds p h
    apply List.find?_eq_none.mpr
    intro d hd
    simp [h d hd]
  · intro ds pre post d p hds hd hpre
    unfold getDiagnosticAtPosition
    rw [hds]
    exact find_eq_of_earlier_false _ _ _ _ hd hpre

/-- Witness for C3: the locator finds the sample diagnostic at position 7
through the first-match clause of the contract. -/
theorem findAt_contract_witness :
    getDiagnosticAtPosition [sampleDiag] ⟨0, 7⟩ = some sampleDiag :=
  findAt_contract.2.2.1 [sampleDiag] [] [] sampleDiag ⟨0, 7⟩ rfl (by decide)
    (by intro e he; simp at he)

/-- C4: the URL opened by the search action is the fixed Google search
base followed by the percent-encoding of the language identifier, one
space, and the raw message; concretely the python/TypeError scenario
yields the query "python%20TypeError%3A%20bad". -/
theorem searchUrl_query_encoding :
    (∀ lang m : String,
        searchUrl lang m =
          "https://www.google.com/search?q=" ++ searchQuery lang m ∧
        searchQuery lang m = encodeURIComponent (lang ++ " " ++ m)) ∧
    searchQuery "python" "TypeError: bad" =
      encodeURIComponent "python TypeError: bad" ∧
    encodeURIComponent "python TypeError: bad" =
      "python%20TypeError%3A%20bad" := by
  exact ⟨fun lang m => ⟨rfl, rfl⟩, by decide, by decide⟩

/-- C5: determinism of the resolver.  The resolver is a function of the
message and the language identifier alone (the rule table is a fixed
constant): calls with identical inputs return identical output. -/
theorem explain_deterministic :
    ∀ m lang m' lang' : String, m = m' → lang = lang' →
      explainError m lang = explainError m' lang' := by
  intro m lang m' lang' hm hl
  rw [hm, hl]

/-- Witness for C5: two identical calls on a concrete input agree. -/
theorem explain_deterministic_witness :
    explainError "TypeError: bad" "python" =
      explainError "TypeError: bad" "python" :=
  explain_deterministic "TypeError: bad" "python" "TypeError: bad" "python"
    rfl rfl

/-- C6: exact language matching.  A rule is selected only when its
language field equals the queried identifier character for character, and
no normalization is applied: querying with "Python" never selects the
rules declared for "python" and always falls back. -/
theorem explain_exact_language_match :
    (∀ (m lang : String) (r : Rule),
        matchedRule m lang = some r → r.language = lang) ∧
    (∀ m : String, explainError m "Python" = fallbackText m) := by
  constructor
  · exact matchedRule_language
  · intro m
    apply explainError_eq_fallback
    simp [noRuleMatches, RULES, ruleMatches, ruleNotDefined, ruleTypeError,
      ruleCannotFindName, rulePropertyNotExist, ruleReferenceError]

/-- Witness for C6: the typescript rule is selected for a typescript
query, and its language field is exactly the queried identifier. -/
theorem explain_exact_language_match_witness :
    matchedRule "Cannot find name 'foo'" "typescript" =
      some ruleCannotFindName ∧
    ruleCannotFindName.language = "typescript" :=
  ⟨by decide,
   explain_exact_language_match.1 "Cannot find name 'foo'" "typescript"
     ruleCannotFindName (by decide)⟩

/-- C7: totality of the resolver.  On every message and language
identifier the resolver returns a string that is either the explanation
of a table rule or the fallback text; no input is rejected. -/
theorem explain_total :
    ∀ m lang : String,
      (∃ r ∈ RULES, explainError m lang = r.explanation) ∨
      explainError m lang = fallbackText m := by
  intro m lang
  cases h : matchedRule m lang with
  | none => exact Or.inr (by simp [explainError, h])
  | some r =>
      exact Or.inl ⟨r, List.mem_of_find?_eq_some h, by simp [explainError, h]⟩

/-- C8: severity-independence of the locator.  The locator is the bind of
the first index whose range contains the position, and two diagnostic
sequences that agree pointwise on message and range (differing only in
severity) produce the same selected index and the same selected
diagnostic up to severity. -/
theorem findAt_severity_blind :
    (∀ (ds : List Diagnostic) (p : Position),
        getDiagnosticAtPosition ds p =
          (firstHitIndex ds p).bind (fun i => ds[i]?)) ∧
    ∀ (ds1 ds2 : List Diagnostic) (p : Position),
      ds1.map stripSeverity = ds2.map stripSeverity →
      Option.map stripSeverity (getDiagnosticAtPosition ds1 p) =
        Option.map stripSeverity (getDiagnosticAtPosition ds2 p) ∧
      firstHitIndex ds1 p = firstHitIndex ds2 p := by
  constructor
  · intro ds
    induction ds with
    | nil => intro p; rfl
    | cons d rest ih =>
        intro p
        by_cases h : rangeContains d.range p
        · simp [getDiagnosticAtPosition, firstHitIndex, List.find?_cons, h]
        · have hrest := ih p
          simp only [getDiagnosticAtPosition] at hrest
          simp only [getDiagnosticAtPosition, firstHitIndex,
            List.find?_cons, h, if_neg, Bool.false_eq_true, ite_false]
          rw [hrest]
          cases hF : firstHitIndex rest p <;> simp
  · intro ds1
    induction ds1 with
    | nil =>
        intro ds2 p h
        cases ds2 with
        | nil => exact ⟨rfl, rfl⟩
        | cons x xs => simp at h
    | cons d1 t1 ih =>
        intro ds2 p h
        cases ds2 with
        | nil => simp at h
        | cons d2 t2 =>
            simp only [List.map_cons, List.cons.injEq] at h
            obtain ⟨hd, ht⟩ := h
            have hrange : d2.range = d1.range := by
              have := congrArg Prod.snd hd
              simpa [stripSeverity] using this.symm
            obtain ⟨ihm, ihi⟩ := ih t2 p ht
            by_cases hc : rangeContains d1.range p
            · constructor
              · simp [getDiagnosticAtPosition, List.find?_cons, hc, hrange,
                  hd]
              · simp [firstHitIndex, hc, hrange]
            · constructor
              · simpa [getDiagnosticAtPosition, List.find?_cons, hc, hrange]
                  using ihm
              · simp only [firstHitIndex, hc, hrange, if_neg,
                  Bool.false_eq_true, ite_false]
                rw [ihi]

/-- Witness for C8: two singleton sequences whose only difference is the
severity of their diagnostic select the same index and the same
diagnostic up to severity. -/
theorem findAt_severity_blind_witness :
    Option.map stripSeverity (getDiagnosticAtPosition
        [⟨"m", DiagnosticSeverity.error, ⟨⟨0, 3⟩, ⟨0, 10⟩⟩⟩] ⟨0, 7⟩) =
      Option.map stripSeverity (getDiagnosticAtPosition
        [⟨"m", DiagnosticSeverity.hint, ⟨⟨0, 3⟩, ⟨0, 10⟩⟩⟩] ⟨0, 7⟩) ∧
    firstHitIndex [⟨"m", DiagnosticSeverity.error, ⟨⟨0, 3⟩, ⟨0, 10⟩⟩⟩]
        ⟨0, 7⟩ =
      firstHitIndex [⟨"m", DiagnosticSeverity.hint, ⟨⟨0, 3⟩, ⟨0, 10⟩⟩⟩]
        ⟨0, 7⟩ :=
  findAt_severity_blind.2
    [⟨"m", DiagnosticSeverity.error, ⟨⟨0, 3⟩, ⟨0, 10⟩⟩⟩]
    [⟨"m", DiagnosticSeverity.hint, ⟨⟨0, 3⟩, ⟨0, 10⟩⟩⟩]
    ⟨0, 7⟩ (by decide)

/-- C9: the empty message matches no pattern of the table, so for every
language identifier the resolver answers with the fallback text. -/
theorem explain_empty_message :
    ∀ lang : String, explainError "" lang = fallbackText "" := by
  intro lang
  apply explainError_eq_fallback
  have h1 : patternTest ruleNotDefined.pattern "" = false := by decide
  have h2 : patternTest ruleTypeError.pattern "" = false := by decide
  have h3 : patternTest ruleCannotFindName.pattern "" = false := by decide
  have h4 : patternTest rulePropertyNotExist.pattern "" = false := by decide
  have h5 : patternTest ruleReferenceError.pattern "" = false := by decide
  simp [noRuleMatches, RULES, ruleMatches, h1, h2, h3, h4, h5]

/-- C10: the fallback is language-blind.  When no rule applies to the
message under either language identifier, the resolver returns the same
text for both. -/
theorem fallback_language_blind :
    ∀ m lang1 lang2 : String, noRuleMatches m lang1 = true →
      noRuleMatches m lang2 = true →
      explainError m lang1 = explainError m lang2 := by
  intro m l1 l2 h1 h2
  rw [explainError_eq_fallback m l1 h1, explainError_eq_fallback m l2 h2]

/-- Witness for C10: an unmatched message explained under "ruby" and
under "go" yields identical text. -/
theorem fallback_language_blind_witness :
    explainError "mystery failure" "ruby" =
      explainError "mystery failure" "go" :=
  fallback_language_blind "mystery failure" "ruby" "go" (by decide)
    (by decide)
